import Mathlib

/-!
Verification of the silver-to-gold enrichment stage of the ride-booking ETL
pipeline (`data_analysis/preprocess/silver_to_gold.py`).

The embedding models:
* `get_loc` — the geocoding resolver with its retry loop (attempt outcomes of
  the external Nominatim service are an oracle `Nat → GeoOutcome`, one outcome
  per attempt; sleeps are recorded as a list of delays);
* `create_location_table` — the dict-comprehension over the set union of
  pickup and drop location strings, threading an explicit counter of
  `get_loc` invocations (the comprehension calls `get_loc(loc)` once for the
  latitude subscript `[0]` and once more for the longitude subscript `[1]`);
* `get_weather_info` / `create_weather_table` — the weather fetch retry loop
  and the per-location frame construction plus `pl.concat`;
* `create_gold_table` — the two exact left joins against the location table,
  the date+time combination, and the two grouped nearest-timestamp as-of
  joins against the weather table (polars `join_asof` with
  `strategy="nearest"`, `tolerance="1h"`, `by=location`: a left join that,
  per left row, picks the same-key right row of minimal timestamp distance,
  the forward candidate replacing the backward one only when strictly
  closer, and yields nulls when the nearest candidate is farther than the
  tolerance).

Timestamps are modelled in minutes: a ride's `datetime` is
`date * 1440 + time` (day index times minutes-per-day plus minute-of-day),
and the `"1h"` tolerance is 60 minutes.  Coordinates and weather measurements
are integers; no claim depends on their arithmetic.
-/

namespace SilverToGold

/-- Outcome of one attempt of the external geocoding service:
a successful match, an explicit "no match" (`geocode` returns `None`),
or an exception raised by the client. -/
inductive GeoOutcome where
  | found (latitude longitude : ℤ)
  | noMatch
  | failure
deriving DecidableEq

/-- Observable trace of one `get_loc` call: the returned value
(`none` models Python falling off the loop without returning, which can
only happen when `max_retries = 0`), the number of service calls made, and
the list of sleeps performed (each entry one delay, in seconds). -/
structure GetLocTrace where
  result : Option (Option ℤ × Option ℤ)
  calls : ℕ
  sleeps : List ℚ
deriving DecidableEq

/-- The retry loop of `get_loc`: `attempt` is the current 0-based attempt
index, `remaining` the number of attempts left (`max_retries - attempt`).
A match returns the coordinates; a "no match" returns `(None, None)` at
once; an exception sleeps and retries while further attempts remain, and
returns `(None, None)` when they are exhausted. -/
def get_locLoop (svc : ℕ → GeoOutcome) (delay : ℚ) (attempt : ℕ) :
    (remaining : ℕ) → GetLocTrace
  | 0 => { result := none, calls := 0, sleeps := [] }
  | remaining + 1 =>
    match svc attempt with
    | .found la lo => { result := some (some la, some lo), calls := 1, sleeps := [] }
    | .noMatch => { result := some (none, none), calls := 1, sleeps := [] }
    | .failure =>
      if remaining = 0 then
        { result := some (none, none), calls := 1, sleeps := [] }
      else
        let rest := get_locLoop svc delay (attempt + 1) remaining
        { result := rest.result, calls := rest.calls + 1, sleeps := delay :: rest.sleeps }

/-- `get_loc(location_string, max_retries=3, delay=1.5)` of
`silver_to_gold.py`, with the service's attempt outcomes supplied as an
oracle. -/
def get_loc (svc : ℕ → GeoOutcome) (max_retries : ℕ := 3) (delay : ℚ := 3 / 2) :
    GetLocTrace :=
  get_locLoop svc delay 0 max_retries

/-- The pair a `get_loc` call at default parameters evaluates to for a given
location, with the whole geocoding service modelled as
`svc : String → ℕ → GeoOutcome` (per location, per attempt). -/
def resolveLoc (svc : String → ℕ → GeoOutcome) (l : String) : Option ℤ × Option ℤ :=
  ((get_loc (svc l)).result).getD (none, none)

/-- A row of the silver ride dataset.  `date` is a day index and `time` a
minute-of-day; the numeric/categorical pass-through attributes are not
modelled since no claim touches them. -/
structure SilverRow where
  booking_id : String
  pickup_location : String
  drop_location : String
  date : ℤ
  time : ℤ
deriving DecidableEq

/-- A row of the location table: `{"location": .., "latitude": .., "longitude": ..}`. -/
structure LocEntry where
  location : String
  latitude : Option ℤ
  longitude : Option ℤ
deriving DecidableEq

/-- `set(pickup_locations) | set(drop_locations)` — the unique location
strings of the dataset (order is irrelevant to every claim; `dedup` models
the set). -/
def uniqueLocations (rides : List SilverRow) : List String :=
  ((rides.map (·.pickup_location)) ++ (rides.map (·.drop_location))).dedup

/-- The dict comprehension of `create_location_table`, threading a counter
of `get_loc` invocations: each entry evaluates `get_loc(loc)[0]` for the
latitude and `get_loc(loc)[1]` for the longitude — two separate calls. -/
def buildLocEntries (svc : String → ℕ → GeoOutcome) :
    List String → ℕ → List LocEntry × ℕ
  | [], n => ([], n)
  | l :: ls, n =>
    let r1 := resolveLoc svc l
    let r2 := resolveLoc svc l
    let rest := buildLocEntries svc ls (n + 2)
    ({ location := l, latitude := r1.1, longitude := r2.2 } :: rest.1, rest.2)

/-- `create_location_table(silver_df)` of `silver_to_gold.py`. -/
def create_location_table (svc : String → ℕ → GeoOutcome) (rides : List SilverRow) :
    List LocEntry :=
  (buildLocEntries svc (uniqueLocations rides) 0).1

/-- Number of `get_loc` invocations performed while building the location
table. -/
def create_location_tableCalls (svc : String → ℕ → GeoOutcome)
    (rides : List SilverRow) : ℕ :=
  (buildLocEntries svc (uniqueLocations rides) 0).2

/-- One hourly observation as extracted by `get_weather_info` (the
`hourly_data` dict minus the location tag): a timestamp (minutes) and the
five weather series values. -/
structure Obs where
  date : ℤ
  temperature_2m : ℤ
  rain : ℤ
  snowfall : ℤ
  wind_speed_10m : ℤ
  wind_speed_100m : ℤ
deriving DecidableEq

/-- The retry loop of `get_weather_info`: the oracle gives, per attempt,
either the extracted hourly rows or an exception.  While attempts remain an
exception sleeps and retries; once exhausted the function returns `None`. -/
def get_weather_infoLoop (svc : ℕ → Except Unit (List Obs)) (attempt : ℕ) :
    (remaining : ℕ) → Option (List Obs)
  | 0 => none
  | remaining + 1 =>
    match svc attempt with
    | .ok rows => some rows
    | .error _ =>
      if remaining = 0 then none
      else get_weather_infoLoop svc (attempt + 1) remaining

/-- `get_weather_info(long, lat, ..., max_retries=3, delay=60)` of
`silver_to_gold.py`: returns the hourly data on success, `None` once all
retries failed. -/
def get_weather_info (svc : ℕ → Except Unit (List Obs)) (max_retries : ℕ := 3) :
    Option (List Obs) :=
  get_weather_infoLoop svc 0 max_retries

/-- The column names of a successful per-location weather frame: the
`hourly_data` dict keys in insertion order, then the appended `location`
column. -/
def weatherSchema : List String :=
  ["date", "temperature_2m", "rain", "snowfall", "wind_speed_10m",
   "wind_speed_100m", "location"]

/-- A per-location polars frame as built inside `create_weather_table`,
abstracted to what the claims observe: its schema, the location it was
tagged with, and its height.  A successful fetch gives the full weather
schema with one row per observation; a failed fetch gives
`pl.DataFrame(None)` (an empty, zero-column frame) to which
`with_columns(pl.lit(location))` adds a single `location` column of height
one. -/
structure WFrame where
  schema : List String
  location : String
  height : ℕ
deriving DecidableEq

/-- `pl.concat(weather_dfs)`: raises on an empty list, raises when the
frames' schemas disagree, and otherwise returns the stacked table (kept
here as the list of per-location frames). -/
def concatFrames : List WFrame → Except String (List WFrame)
  | [] => .error "cannot concat empty list"
  | f :: fs =>
    if fs.all (fun g => g.schema == f.schema) then .ok (f :: fs)
    else .error "unable to vstack, column names do not match"

/-- The frame built for one resolvable location row: `pl.DataFrame(weather_data)`
tagged with the location.  `fetch` is `get_weather_info` applied to the
row's longitude and latitude. -/
def locationFrame (fetch : ℤ → ℤ → Option (List Obs)) (e : LocEntry) : WFrame :=
  match fetch (e.longitude.getD 0) (e.latitude.getD 0) with
  | some rows => { schema := weatherSchema, location := e.location, height := rows.length }
  | none => { schema := ["location"], location := e.location, height := 1 }

/-- `create_weather_table(silver_df, loc_df)` of `silver_to_gold.py`:
iterates `loc_df.drop_nulls()` (the in-loop `is None` check is unreachable
after `drop_nulls`), builds one tagged frame per remaining location, and
concatenates.  The shared date span taken from the silver data is folded
into `fetch`, which no claim inspects. -/
def create_weather_table (fetch : ℤ → ℤ → Option (List Obs))
    (loc_df : List LocEntry) : Except String (List WFrame) :=
  let resolvable := loc_df.filter (fun e => e.latitude.isSome && e.longitude.isSome)
  concatFrames (resolvable.map (locationFrame fetch))

/-- A row of the long-form weather table consumed by `create_gold_table`:
an observation tagged with its location. -/
structure WeatherRow where
  location : String
  date : ℤ
  temperature_2m : ℤ
  rain : ℤ
  snowfall : ℤ
  wind_speed_10m : ℤ
  wind_speed_100m : ℤ
deriving DecidableEq

/-- A gold ride row: the silver fields, the coordinates added by the two
location joins, the derived `datetime`, and the weather fields added by the
two as-of joins (`none` = null). -/
structure GoldRow where
  booking_id : String
  pickup_location : String
  drop_location : String
  date : ℤ
  time : ℤ
  pickup_latitude : Option ℤ
  pickup_longitude : Option ℤ
  drop_latitude : Option ℤ
  drop_longitude : Option ℤ
  datetime : ℤ
  pickup_temperature_2m : Option ℤ
  pickup_rain : Option ℤ
  pickup_snowfall : Option ℤ
  pickup_wind_speed_10m : Option ℤ
  pickup_wind_speed_100m : Option ℤ
  drop_temperature_2m : Option ℤ
  drop_rain : Option ℤ
  drop_snowfall : Option ℤ
  drop_wind_speed_10m : Option ℤ
  drop_wind_speed_100m : Option ℤ
deriving DecidableEq

/-- A silver row before any enrichment: coordinates and weather fields
null, `datetime` not yet derived. -/
def initRow (r : SilverRow) : GoldRow :=
  { booking_id := r.booking_id, pickup_location := r.pickup_location,
    drop_location := r.drop_location, date := r.date, time := r.time,
    pickup_latitude := none, pickup_longitude := none,
    drop_latitude := none, drop_longitude := none, datetime := 0,
    pickup_temperature_2m := none, pickup_rain := none, pickup_snowfall := none,
    pickup_wind_speed_10m := none, pickup_wind_speed_100m := none,
    drop_temperature_2m := none, drop_rain := none, drop_snowfall := none,
    drop_wind_speed_10m := none, drop_wind_speed_100m := none }

/-- Distance, in minutes, between a ride timestamp and an observation
timestamp. -/
def distTo (t : ℤ) (w : WeatherRow) : ℕ := (t - w.date).natAbs

/-- One step of the nearest-candidate scan of polars `join_asof` with
`strategy="nearest"`: a new candidate replaces the current best only when
it is strictly closer, or equally close with a strictly earlier
timestamp (the forward candidate never displaces an equally distant
backward one). -/
def nearestStep (t : ℤ) (acc : Option WeatherRow) (w : WeatherRow) : Option WeatherRow :=
  match acc with
  | none => some w
  | some b =>
    if distTo t w < distTo t b ∨ (distTo t w = distTo t b ∧ w.date < b.date) then some w
    else some b

/-- The grouped nearest as-of lookup performed by
`join_asof(..., by=key, strategy="nearest", tolerance="1h")` for one left
row: among the observations of the row's key, the nearest timestamp wins
(ties to the earlier); a nearest candidate farther than 60 minutes leaves
the row unmatched. -/
def join_asof_nearest (weather : List WeatherRow) (key : String) (t : ℤ) :
    Option WeatherRow :=
  match (weather.filter (fun w => w.location == key)).foldl (nearestStep t) none with
  | some b => if distTo t b ≤ 60 then some b else none
  | none => none

/-- Fill the pickup weather columns of a row from the as-of match on its
pickup location (an unmatched row keeps its nulls). -/
def applyPickupWeather (weather : List WeatherRow) (r : GoldRow) : GoldRow :=
  match join_asof_nearest weather r.pickup_location r.datetime with
  | some w =>
    { r with pickup_temperature_2m := some w.temperature_2m,
             pickup_rain := some w.rain, pickup_snowfall := some w.snowfall,
             pickup_wind_speed_10m := some w.wind_speed_10m,
             pickup_wind_speed_100m := some w.wind_speed_100m }
  | none => r

/-- Fill the drop weather columns of a row from the as-of match on its
drop location. -/
def applyDropWeather (weather : List WeatherRow) (r : GoldRow) : GoldRow :=
  match join_asof_nearest weather r.drop_location r.datetime with
  | some w =>
    { r with drop_temperature_2m := some w.temperature_2m,
             drop_rain := some w.rain, drop_snowfall := some w.snowfall,
             drop_wind_speed_10m := some w.wind_speed_10m,
             drop_wind_speed_100m := some w.wind_speed_100m }
  | none => r

/-- The ordering used by `gold_df.sort(by="datetime")`. -/
def goldLE (a b : GoldRow) : Prop := a.datetime ≤ b.datetime

instance : DecidableRel goldLE := fun a b => inferInstanceAs (Decidable (a.datetime ≤ b.datetime))

instance : IsTotal GoldRow goldLE := ⟨fun a b => Int.le_total a.datetime b.datetime⟩

instance : IsTrans GoldRow goldLE := ⟨fun _ _ _ h h2 => le_trans h h2⟩

/-- `gold_df.sort(by="datetime")`, modelled as a sorted permutation. -/
def sortByDatetime (l : List GoldRow) : List GoldRow := List.insertionSort goldLE l

/-- One left-join step of `df.join(right, on=key, how="left")`: a left row
with no key match survives with nulls; otherwise it is emitted once per
matching right row. -/
def leftJoinRows (hits : List LocEntry) (keep : GoldRow)
    (combine : LocEntry → GoldRow) : List GoldRow :=
  match hits with
  | [] => [keep]
  | ms => ms.map combine

/-- Stage 1 of `create_gold_table`: `silver_df.join(pickup_loc_df,
on="pickup_location", how="left")`. -/
def goldStage1 (rides : List SilverRow) (loc : List LocEntry) : List GoldRow :=
  (rides.map initRow).flatMap (fun r =>
    leftJoinRows (loc.filter (fun e => e.location == r.pickup_location)) r
      (fun e => { r with pickup_latitude := e.latitude, pickup_longitude := e.longitude }))

/-- Stage 2: the identical left join on `drop_location`. -/
def goldStage2 (rides : List SilverRow) (loc : List LocEntry) : List GoldRow :=
  (goldStage1 rides loc).flatMap (fun r =>
    leftJoinRows (loc.filter (fun e => e.location == r.drop_location)) r
      (fun e => { r with drop_latitude := e.latitude, drop_longitude := e.longitude }))

/-- Stage 3: derive the `datetime` column from the date and time fields. -/
def goldStage3 (rides : List SilverRow) (loc : List LocEntry) : List GoldRow :=
  (goldStage2 rides loc).map (fun r => { r with datetime := r.date * 1440 + r.time })

/-- Stage 4: `sort(by="datetime")` then the pickup-side as-of weather join. -/
def goldStage4 (rides : List SilverRow) (loc : List LocEntry)
    (weather : List WeatherRow) : List GoldRow :=
  (sortByDatetime (goldStage3 rides loc)).map (applyPickupWeather weather)

/-- `create_gold_table(silver_df, loc_df, weather_df)` of
`silver_to_gold.py`: left join on `pickup_location`, left join on
`drop_location`, derive `datetime` from date and time, sort and as-of join
the pickup weather, sort and as-of join the drop weather.  (The raw
weather timestamp columns dropped at the end are never materialised
here.) -/
def create_gold_table (rides : List SilverRow) (loc : List LocEntry)
    (weather : List WeatherRow) : List GoldRow :=
  (sortByDatetime (goldStage4 rides loc weather)).map (applyDropWeather weather)

/-- The five pickup weather columns of a gold row. -/
def pickupWeatherFields (g : GoldRow) :
    Option ℤ × Option ℤ × Option ℤ × Option ℤ × Option ℤ :=
  (g.pickup_temperature_2m, g.pickup_rain, g.pickup_snowfall,
   g.pickup_wind_speed_10m, g.pickup_wind_speed_100m)

/-- The five drop weather columns of a gold row. -/
def dropWeatherFields (g : GoldRow) :
    Option ℤ × Option ℤ × Option ℤ × Option ℤ × Option ℤ :=
  (g.drop_temperature_2m, g.drop_rain, g.drop_snowfall,
   g.drop_wind_speed_10m, g.drop_wind_speed_100m)

/-- The weather columns contributed by an as-of match: all null when the
match is absent, the observation's five values otherwise. -/
def weatherFieldsOpt (o : Option WeatherRow) :
    Option ℤ × Option ℤ × Option ℤ × Option ℤ × Option ℤ :=
  match o with
  | none => (none, none, none, none, none)
  | some w => (some w.temperature_2m, some w.rain, some w.snowfall,
               some w.wind_speed_10m, some w.wind_speed_100m)

/-- Agreement of the silver fields of a gold row with its source ride. -/
def baseEq (g : GoldRow) (r : SilverRow) : Prop :=
  g.booking_id = r.booking_id ∧ g.pickup_location = r.pickup_location ∧
  g.drop_location = r.drop_location ∧ g.date = r.date ∧ g.time = r.time

/-- The tie-breaking preorder realised by the nearest-candidate scan:
closer wins, and among equally distant observations the earlier one. -/
def lexLE (t : ℤ) (b w : WeatherRow) : Prop :=
  distTo t b < distTo t w ∨ (distTo t b = distTo t w ∧ b.date ≤ w.date)

/-! Concrete fixtures used by the example conjuncts and witnesses. -/

/-- A weather observation at location `"X"` with a given timestamp and
temperature (the remaining series are zero). -/
def wX (d : ℤ) (tv : ℤ) : WeatherRow :=
  { location := "X", date := d, temperature_2m := tv, rain := 0, snowfall := 0,
    wind_speed_10m := 0, wind_speed_100m := 0 }

/-- A ride from `"X"` to `"X"` on day 0 at a given minute-of-day. -/
def rideAt (id : String) (tm : ℤ) : SilverRow :=
  { booking_id := id, pickup_location := "X", drop_location := "X",
    date := 0, time := tm }

/-- A location table resolving `"X"`. -/
def locX : List LocEntry := [{ location := "X", latitude := some 12, longitude := some 77 }]

/-- Observations at 10:00 (temperature 21) and 12:00 (temperature 25) at
`"X"`: the spec's nearest-match tolerance scenario. -/
def weatherTol : List WeatherRow := [wX 600 21, wX 720 25]

/-- Rides at `"X"` at 10:50 and at 13:30. -/
def ridesTol : List SilverRow := [rideAt "R1" 650, rideAt "R2" 810]

/-- Observations at 10:00 (temperature 11) and 11:00 (temperature 13) at
`"X"`: the spec's tie-break scenario. -/
def weatherTie : List WeatherRow := [wX 600 11, wX 660 13]

/-- Rides given in descending time order, to observe the output ordering. -/
def ridesDesc : List SilverRow := [rideAt "L" 700, rideAt "E" 100]

/-- A single ride whose pickup and drop location are both `"A"`: one unique
location string. -/
def ridesOneLoc : List SilverRow :=
  [{ booking_id := "R1", pickup_location := "A", drop_location := "A",
     date := 0, time := 0 }]

/-- A geocoding service that always reports "no match". -/
def svcNoMatch : String → ℕ → GeoOutcome := fun _ _ => .noMatch

/-- A weather fetch that fails (all retries exhausted) for every
coordinate. -/
def fetchFail : ℤ → ℤ → Option (List Obs) := fun _ _ => none

/-- A location `"A"` with resolved coordinates. -/
def locA : LocEntry := { location := "A", latitude := some 1, longitude := some 2 }

/-- A concrete hourly observation row. -/
def obs0 : Obs :=
  { date := 600, temperature_2m := 21, rain := 0, snowfall := 0,
    wind_speed_10m := 0, wind_speed_100m := 0 }

/-- Two resolvable locations. -/
def locsAB : List LocEntry :=
  [{ location := "A", latitude := some 1, longitude := some 1 },
   { location := "B", latitude := some 2, longitude := some 2 }]

/-- A fetch that succeeds (one observation) at longitude 2 — location `"B"`
of `locsAB` — and fails elsewhere. -/
def fetchMixed : ℤ → ℤ → Option (List Obs) :=
  fun lo _ => if lo = 2 then some [obs0] else none

/-- A fetch that succeeds with one observation everywhere. -/
def fetchOk : ℤ → ℤ → Option (List Obs) := fun _ _ => some [obs0]

/-- A geocoding service whose every attempt raises. -/
def svcAllFail : ℕ → GeoOutcome := fun _ => .failure

/-- The location-table entry produced for `"A"` under `svcNoMatch`. -/
def entryA : LocEntry := { location := "A", latitude := none, longitude := none }

/-! ### Properties of the nearest-candidate scan -/

theorem lexLE_refl (t : ℤ) (b : WeatherRow) : lexLE t b b :=
  Or.inr ⟨rfl, le_refl _⟩

theorem lexLE_trans {t : ℤ} {a b c : WeatherRow} (h1 : lexLE t a b) (h2 : lexLE t b c) :
    lexLE t a c := by
  rcases h1 with h1 | ⟨e1, d1⟩ <;> rcases h2 with h2 | ⟨e2, d2⟩
  · exact Or.inl (lt_trans h1 h2)
  · exact Or.inl (e2 ▸ h1)
  · exact Or.inl (e1 ▸ h2)
  · exact Or.inr ⟨e1.trans e2, le_trans d1 d2⟩

theorem lexLE_dist_le {t : ℤ} {a b : WeatherRow} (h : lexLE t a b) :
    distTo t a ≤ distTo t b := by
  rcases h with h | ⟨e, _⟩
  · exact le_of_lt h
  · exact le_of_eq e

theorem lexLE_date_le {t : ℤ} {a b : WeatherRow} (h : lexLE t a b)
    (he : distTo t a = distTo t b) : a.date ≤ b.date := by
  rcases h with h | ⟨_, d⟩
  · exact absurd he (ne_of_lt h)
  · exact d

/-- Each scan step keeps one of the two candidates, and the kept one is
`lexLE`-below the other. -/
theorem nearestStep_cases (t : ℤ) (b w : WeatherRow) :
    (nearestStep t (some b) w = some w ∧ lexLE t w b) ∨
      (nearestStep t (some b) w = some b ∧ lexLE t b w) := by
  by_cases h : distTo t w < distTo t b ∨ (distTo t w = distTo t b ∧ w.date < b.date)
  · refine Or.inl ⟨?_, ?_⟩
    · change (if distTo t w < distTo t b ∨ (distTo t w = distTo t b ∧ w.date < b.date)
          then some w else some b) = some w
      rw [if_pos h]
    · rcases h with h | ⟨e, d⟩
      · exact Or.inl h
      · exact Or.inr ⟨e, le_of_lt d⟩
  · refine Or.inr ⟨?_, ?_⟩
    · change (if distTo t w < distTo t b ∨ (distTo t w = distTo t b ∧ w.date < b.date)
          then some w else some b) = some b
      rw [if_neg h]
    · unfold lexLE
      omega

/-- The scan over a candidate list returns a candidate that is
`lexLE`-minimal among the accumulator and the list. -/
theorem foldl_nearestStep_spec (t : ℤ) :
    ∀ (l : List WeatherRow) (b0 : WeatherRow),
      ∃ b, l.foldl (nearestStep t) (some b0) = some b ∧ (b = b0 ∨ b ∈ l) ∧
        lexLE t b b0 ∧ ∀ w ∈ l, lexLE t b w
  | [], b0 => ⟨b0, rfl, Or.inl rfl, lexLE_refl t b0, by simp⟩
  | w :: l, b0 => by
    rcases nearestStep_cases t b0 w with ⟨hstep, hwb⟩ | ⟨hstep, hbw⟩
    · obtain ⟨b, hfold, hmem, hle, hall⟩ := foldl_nearestStep_spec t l w
      refine ⟨b, ?_, ?_, lexLE_trans hle hwb, ?_⟩
      · rw [List.foldl_cons, hstep]; exact hfold
      · rcases hmem with rfl | h
        · exact Or.inr (List.mem_cons_self _ _)
        · exact Or.inr (List.mem_cons_of_mem _ h)
      · intro w2 hw2
        rcases List.mem_cons.mp hw2 with rfl | h
        · exact hle
        · exact hall _ h
    · obtain ⟨b, hfold, hmem, hle, hall⟩ := foldl_nearestStep_spec t l b0
      refine ⟨b, ?_, ?_, hle, ?_⟩
      · rw [List.foldl_cons, hstep]; exact hfold
      · rcases hmem with rfl | h
        · exact Or.inl rfl
        · exact Or.inr (List.mem_cons_of_mem _ h)
      · intro w2 hw2
        rcases List.mem_cons.mp hw2 with rfl | h
        · exact lexLE_trans hle hbw
        · exact hall _ h

/-- A successful as-of lookup returns an observation of the requested key,
within tolerance, `lexLE`-minimal among all same-key observations. -/
theorem join_asof_nearest_eq_some {weather : List WeatherRow} {key : String} {t : ℤ}
    {w : WeatherRow} (h : join_asof_nearest weather key t = some w) :
    w ∈ weather ∧ w.location = key ∧ distTo t w ≤ 60 ∧
      ∀ w2 ∈ weather, w2.location = key → lexLE t w w2 := by
  unfold join_asof_nearest at h
  cases hc : weather.filter (fun x => x.location == key) with
  | nil => rw [hc] at h; simp at h
  | cons c cs =>
    rw [hc] at h
    have hstep0 : List.foldl (nearestStep t) none (c :: cs)
        = List.foldl (nearestStep t) (some c) cs := by
      rw [List.foldl_cons]; rfl
    rw [hstep0] at h
    obtain ⟨b, hfold, hmem, hle, hall⟩ := foldl_nearestStep_spec t cs c
    rw [hfold] at h
    change (if distTo t b ≤ 60 then some b else none) = some w at h
    by_cases htol : distTo t b ≤ 60
    · rw [if_pos htol] at h
      cases h
      have hbf : w ∈ weather.filter (fun x => x.location == key) := by
        rw [hc]
        rcases hmem with rfl | hm
        · exact List.mem_cons_self _ _
        · exact List.mem_cons_of_mem _ hm
      obtain ⟨hbw, hbl⟩ := List.mem_filter.mp hbf
      refine ⟨hbw, by simpa using hbl, htol, ?_⟩
      intro w2 hw2 hl2
      have hw2f : w2 ∈ weather.filter (fun x => x.location == key) :=
        List.mem_filter.mpr ⟨hw2, by simpa using hl2⟩
      rw [hc] at hw2f
      rcases List.mem_cons.mp hw2f with rfl | hm
      · exact hle
      · exact hall _ hm
    · rw [if_neg htol] at h
      exact absurd h (by simp)

/-- An unmatched as-of lookup means every same-key observation is farther
than the tolerance. -/
theorem join_asof_nearest_eq_none {weather : List WeatherRow} {key : String} {t : ℤ}
    (h : join_asof_nearest weather key t = none) :
    ∀ w2 ∈ weather, w2.location = key → 60 < distTo t w2 := by
  intro w2 hw2 hl2
  have hw2f : w2 ∈ weather.filter (fun x => x.location == key) :=
    List.mem_filter.mpr ⟨hw2, by simpa using hl2⟩
  unfold join_asof_nearest at h
  cases hc : weather.filter (fun x => x.location == key) with
  | nil => rw [hc] at hw2f; cases hw2f
  | cons c cs =>
    rw [hc] at h
    have hstep0 : List.foldl (nearestStep t) none (c :: cs)
        = List.foldl (nearestStep t) (some c) cs := by
      rw [List.foldl_cons]; rfl
    rw [hstep0] at h
    obtain ⟨b, hfold, hmem, hle, hall⟩ := foldl_nearestStep_spec t cs c
    rw [hfold] at h
    change (if distTo t b ≤ 60 then some b else none) = none at h
    by_cases htol : distTo t b ≤ 60
    · rw [if_pos htol] at h; cases h
    · rw [if_neg htol] at h
      have hbw2 : lexLE t b w2 := by
        rw [hc] at hw2f
        rcases List.mem_cons.mp hw2f with rfl | hm
        · exact hle
        · exact hall _ hm
      have := lexLE_dist_le hbw2
      omega

/-! ### Shape lemmas for the gold-table stages -/

theorem leftJoinRows_nil (keep : GoldRow) (f : LocEntry → GoldRow) :
    leftJoinRows [] keep f = [keep] := rfl

theorem leftJoinRows_cons (e : LocEntry) (es : List LocEntry) (keep : GoldRow)
    (f : LocEntry → GoldRow) : leftJoinRows (e :: es) keep f = (e :: es).map f := rfl

/-- A member of a left-join block is the null-extended left row (when there
is no match) or a combination with one of the matches. -/
theorem mem_leftJoinRows {hits : List LocEntry} {keep : GoldRow}
    {f : LocEntry → GoldRow} {g : GoldRow} (h : g ∈ leftJoinRows hits keep f) :
    (hits = [] ∧ g = keep) ∨ ∃ e ∈ hits, g = f e := by
  cases hits with
  | nil =>
    rw [leftJoinRows_nil] at h
    exact Or.inl ⟨rfl, (List.mem_singleton).mp h⟩
  | cons e es =>
    rw [leftJoinRows_cons] at h
    obtain ⟨a, ha, rfl⟩ := List.mem_map.mp h
    exact Or.inr ⟨a, ha, rfl⟩

theorem applyPickupWeather_pres (weather : List WeatherRow) (r : GoldRow) :
    (applyPickupWeather weather r).booking_id = r.booking_id ∧
    (applyPickupWeather weather r).pickup_location = r.pickup_location ∧
    (applyPickupWeather weather r).drop_location = r.drop_location ∧
    (applyPickupWeather weather r).date = r.date ∧
    (applyPickupWeather weather r).time = r.time ∧
    (applyPickupWeather weather r).datetime = r.datetime ∧
    (applyPickupWeather weather r).pickup_latitude = r.pickup_latitude ∧
    (applyPickupWeather weather r).pickup_longitude = r.pickup_longitude ∧
    (applyPickupWeather weather r).drop_latitude = r.drop_latitude ∧
    (applyPickupWeather weather r).drop_longitude = r.drop_longitude ∧
    dropWeatherFields (applyPickupWeather weather r) = dropWeatherFields r := by
  unfold applyPickupWeather
  split <;> exact ⟨rfl, rfl, rfl, rfl, rfl, rfl, rfl, rfl, rfl, rfl, rfl⟩

theorem applyDropWeather_pres (weather : List WeatherRow) (r : GoldRow) :
    (applyDropWeather weather r).booking_id = r.booking_id ∧
    (applyDropWeather weather r).pickup_location = r.pickup_location ∧
    (applyDropWeather weather r).drop_location = r.drop_location ∧
    (applyDropWeather weather r).date = r.date ∧
    (applyDropWeather weather r).time = r.time ∧
    (applyDropWeather weather r).datetime = r.datetime ∧
    (applyDropWeather weather r).pickup_latitude = r.pickup_latitude ∧
    (applyDropWeather weather r).pickup_longitude = r.pickup_longitude ∧
    (applyDropWeather weather r).drop_latitude = r.drop_latitude ∧
    (applyDropWeather weather r).drop_longitude = r.drop_longitude ∧
    pickupWeatherFields (applyDropWeather weather r) = pickupWeatherFields r := by
  unfold applyDropWeather
  split <;> exact ⟨rfl, rfl, rfl, rfl, rfl, rfl, rfl, rfl, rfl, rfl, rfl⟩

/-- On a row whose pickup weather columns are still null, the pickup as-of
join writes exactly the matched observation's fields (or leaves the
nulls). -/
theorem pickupWeatherFields_apply (weather : List WeatherRow) (r : GoldRow)
    (h : pickupWeatherFields r = (none, none, none, none, none)) :
    pickupWeatherFields (applyPickupWeather weather r)
      = weatherFieldsOpt (join_asof_nearest weather r.pickup_location r.datetime) := by
  unfold applyPickupWeather
  cases hj : join_asof_nearest weather r.pickup_location r.datetime with
  | none => simpa [weatherFieldsOpt] using h
  | some w => rfl

/-- Same for the drop side. -/
theorem dropWeatherFields_apply (weather : List WeatherRow) (r : GoldRow)
    (h : dropWeatherFields r = (none, none, none, none, none)) :
    dropWeatherFields (applyDropWeather weather r)
      = weatherFieldsOpt (join_asof_nearest weather r.drop_location r.datetime) := by
  unfold applyDropWeather
  cases hj : join_asof_nearest weather r.drop_location r.datetime with
  | none => simpa [weatherFieldsOpt] using h
  | some w => rfl

/-- Rows of the location-join stages still have all weather columns null. -/
theorem stage1_noWeather {rides : List SilverRow} {loc : List LocEntry} {g : GoldRow}
    (h : g ∈ goldStage1 rides loc) :
    pickupWeatherFields g = (none, none, none, none, none) ∧
      dropWeatherFields g = (none, none, none, none, none) := by
  unfold goldStage1 at h
  obtain ⟨r0, hr0, hg⟩ := List.mem_flatMap.mp h
  obtain ⟨r, _, rfl⟩ := List.mem_map.mp hr0
  rcases mem_leftJoinRows hg with ⟨_, rfl⟩ | ⟨e, _, rfl⟩
  · exact ⟨rfl, rfl⟩
  · exact ⟨rfl, rfl⟩

theorem stage2_noWeather {rides : List SilverRow} {loc : List LocEntry} {g : GoldRow}
    (h : g ∈ goldStage2 rides loc) :
    pickupWeatherFields g = (none, none, none, none, none) ∧
      dropWeatherFields g = (none, none, none, none, none) := by
  unfold goldStage2 at h
  obtain ⟨r0, hr0, hg⟩ := List.mem_flatMap.mp h
  have h0 := stage1_noWeather hr0
  rcases mem_leftJoinRows hg with ⟨_, rfl⟩ | ⟨e, _, rfl⟩
  · exact h0
  · exact h0

theorem stage3_noWeather {rides : List SilverRow} {loc : List LocEntry} {g : GoldRow}
    (h : g ∈ goldStage3 rides loc) :
    pickupWeatherFields g = (none, none, none, none, none) ∧
      dropWeatherFields g = (none, none, none, none, none) := by
  unfold goldStage3 at h
  obtain ⟨r0, hr0, rfl⟩ := List.mem_map.mp h
  have h2 := stage2_noWeather hr0
  exact h2

/-- Every output row's weather columns are exactly the as-of lookup of its
own key and timestamp: the two weather joins fill the columns from
`join_asof_nearest` and from nothing else. -/
theorem gold_weather_link (rides : List SilverRow) (loc : List LocEntry)
    (weather : List WeatherRow) :
    ∀ g ∈ create_gold_table rides loc weather,
      pickupWeatherFields g
          = weatherFieldsOpt (join_asof_nearest weather g.pickup_location g.datetime) ∧
        dropWeatherFields g
          = weatherFieldsOpt (join_asof_nearest weather g.drop_location g.datetime) := by
  intro g hg
  unfold create_gold_table at hg
  obtain ⟨a, ha, rfl⟩ := List.mem_map.mp hg
  have ha4 : a ∈ goldStage4 rides loc weather :=
    (List.perm_insertionSort goldLE _).mem_iff.mp ha
  unfold goldStage4 at ha4
  obtain ⟨h3, hh3, rfl⟩ := List.mem_map.mp ha4
  have hh3m : h3 ∈ goldStage3 rides loc :=
    (List.perm_insertionSort goldLE _).mem_iff.mp hh3
  have hnw := stage3_noWeather hh3m
  obtain ⟨_, hploc, hdloc, _, _, hdt, _, _, _, _, hkeepP⟩ :=
    applyDropWeather_pres weather (applyPickupWeather weather h3)
  obtain ⟨_, hploc2, hdloc2, _, _, hdt2, _, _, _, _, hkeepD⟩ :=
    applyPickupWeather_pres weather h3
  constructor
  · rw [hkeepP, hploc, hdt, hploc2, hdt2]
    exact pickupWeatherFields_apply weather h3 hnw.1
  · rw [hdloc, hdt]
    exact dropWeatherFields_apply weather _ (hkeepD.trans hnw.2)

/-! ### Claim theorems -/

/-- C1: the pickup weather join selects, among the weather observations
tagged with the ride's pickup location, the one nearest to the ride's
event timestamp within a 1-hour tolerance, and leaves the pickup weather
fields null when no observation lies within tolerance; the drop join
behaves identically keyed by the drop location.  Conjunct 1 characterises
the as-of lookup (a match is a same-key observation within 60 minutes at
minimal distance; no match means every same-key observation is farther
than 60 minutes); conjunct 2 states that every output row's pickup and
drop weather columns are exactly this lookup at the row's own key and
timestamp; conjunct 3 runs the spec's example (observations at 10:00 and
12:00 at X: a ride at 10:50 receives the 10:00 observation, a ride at
13:30 receives nulls, on both the pickup and the drop side). -/
theorem pickup_weather_join_nearest_within_tolerance :
    (∀ (weather : List WeatherRow) (key : String) (t : ℤ),
      (∀ w, join_asof_nearest weather key t = some w →
        w ∈ weather ∧ w.location = key ∧ distTo t w ≤ 60 ∧
          ∀ w2 ∈ weather, w2.location = key → distTo t w ≤ distTo t w2) ∧
      (join_asof_nearest weather key t = none →
        ∀ w2 ∈ weather, w2.location = key → 60 < distTo t w2)) ∧
    (∀ (rides : List SilverRow) (loc : List LocEntry) (weather : List WeatherRow),
      ∀ g ∈ create_gold_table rides loc weather,
        pickupWeatherFields g
            = weatherFieldsOpt (join_asof_nearest weather g.pickup_location g.datetime) ∧
          dropWeatherFields g
            = weatherFieldsOpt (join_asof_nearest weather g.drop_location g.datetime)) ∧
    ((create_gold_table ridesTol locX weatherTol).map
        (fun g => (g.booking_id, pickupWeatherFields g, dropWeatherFields g))
      = [("R1", (some 21, some 0, some 0, some 0, some 0),
           (some 21, some 0, some 0, some 0, some 0)),
         ("R2", (none, none, none, none, none), (none, none, none, none, none))]) := by
  refine ⟨?_, gold_weather_link, by rfl⟩
  intro weather key t
  constructor
  · intro w hw
    obtain ⟨h1, h2, h3, h4⟩ := join_asof_nearest_eq_some hw
    exact ⟨h1, h2, h3, fun w2 m l => lexLE_dist_le (h4 w2 m l)⟩
  · exact join_asof_nearest_eq_none

/-- Witness for C1: at the spec's example input, the lookup at 10:50
returns the 10:00 observation, which is in the table, tagged `"X"`,
within tolerance and of minimal distance. -/
theorem pickup_weather_join_nearest_within_tolerance_witness :
    wX 600 21 ∈ weatherTol ∧ (wX 600 21).location = "X" ∧
      distTo 650 (wX 600 21) ≤ 60 ∧
      ∀ w2 ∈ weatherTol, w2.location = "X" → distTo 650 (wX 600 21) ≤ distTo 650 w2 :=
  (pickup_weather_join_nearest_within_tolerance.1 weatherTol "X" 650).1
    (wX 600 21) (by decide)

/-- C3: when a ride's event timestamp is exactly equidistant from two
same-location observations, the join selects the earlier one.  Conjunct 1:
any selected observation has a timestamp no later than every equally
distant same-key observation; conjunct 2 runs the spec's example
(observations at 10:00 and 11:00, ride at exactly 10:30: the 10:00
observation, temperature 11, is selected). -/
theorem weather_tie_prefers_earlier :
    (∀ (weather : List WeatherRow) (key : String) (t : ℤ) (w : WeatherRow),
      join_asof_nearest weather key t = some w →
        ∀ w2 ∈ weather, w2.location = key → distTo t w2 = distTo t w →
          w.date ≤ w2.date) ∧
    ((create_gold_table [rideAt "T1" 630] locX weatherTie).map
        (fun g => (g.booking_id, g.pickup_temperature_2m, g.drop_temperature_2m))
      = [("T1", some 11, some 11)]) := by
  constructor
  · intro weather key t w hw w2 m l he
    exact lexLE_date_le ((join_asof_nearest_eq_some hw).2.2.2 w2 m l) he.symm
  · decide

/-- Witness for C3: with observations at 10:00 and 11:00 and a ride at
exactly 10:30, the selected 10:00 observation is no later than the equally
distant 11:00 one. -/
theorem weather_tie_prefers_earlier_witness :
    (wX 600 11).date ≤ (wX 660 13).date :=
  weather_tie_prefers_earlier.1 weatherTie "X" 630 (wX 600 11) (by decide)
    (wX 660 13) (by decide) (by decide) (by decide)

/-- C10: the gold table is returned sorted in ascending order of the
derived `datetime` column, and the original input ordering is not
preserved (conjunct 2: an input given in descending time order comes back
in ascending order). -/
theorem gold_sorted_by_datetime :
    (∀ (rides : List SilverRow) (loc : List LocEntry) (weather : List WeatherRow),
      (create_gold_table rides loc weather).Pairwise goldLE) ∧
    ((create_gold_table ridesDesc locX weatherTol).map (·.booking_id) = ["E", "L"] ∧
      ridesDesc.map (·.booking_id) = ["L", "E"]) := by
  constructor
  · intro rides loc weather
    unfold create_gold_table
    rw [List.pairwise_map]
    have hs : List.Pairwise goldLE (sortByDatetime (goldStage4 rides loc weather)) :=
      List.sorted_insertionSort goldLE _
    refine hs.imp ?_
    intro a b hab
    unfold goldLE at hab ⊢
    rw [(applyDropWeather_pres weather a).2.2.2.2.2.1,
      (applyDropWeather_pres weather b).2.2.2.2.2.1]
    exact hab
  · exact ⟨by decide, by decide⟩

/-! ### Location table lemmas and claims -/

theorem buildLocEntries_snd (svc : String → ℕ → GeoOutcome) :
    ∀ (ls : List String) (n : ℕ), (buildLocEntries svc ls n).2 = n + 2 * ls.length
  | [], _ => rfl
  | l :: ls, n => by
    have ih := buildLocEntries_snd svc ls (n + 2)
    simp only [buildLocEntries, ih, List.length_cons]
    ring

theorem buildLocEntries_map_location (svc : String → ℕ → GeoOutcome) :
    ∀ (ls : List String) (n : ℕ),
      ((buildLocEntries svc ls n).1).map (·.location) = ls
  | [], _ => rfl
  | l :: ls, n => by
    simp only [buildLocEntries, List.map_cons,
      buildLocEntries_map_location svc ls (n + 2)]

theorem create_location_table_map_location (svc : String → ℕ → GeoOutcome)
    (rides : List SilverRow) :
    (create_location_table svc rides).map (·.location) = uniqueLocations rides :=
  buildLocEntries_map_location svc _ 0

theorem buildLocEntries_mem (svc : String → ℕ → GeoOutcome) :
    ∀ {ls : List String} {n : ℕ} {e : LocEntry},
      e ∈ (buildLocEntries svc ls n).1 →
      ∃ l ∈ ls, e = { location := l, latitude := (resolveLoc svc l).1,
                      longitude := (resolveLoc svc l).2 }
  | [], _, _, h => absurd h (List.not_mem_nil _)
  | l :: ls, n, e, h => by
    rcases List.mem_cons.mp h with rfl | hm
    · exact ⟨l, List.mem_cons_self _ _, rfl⟩
    · obtain ⟨l2, hl2, he⟩ := buildLocEntries_mem svc hm
      exact ⟨l2, List.mem_cons_of_mem _ hl2, he⟩

/-- C4 (code bug): building the location table invokes `get_loc` exactly
`2 * L` times — twice per unique location, once for the latitude subscript
and once for the longitude subscript — not the `L` times the claim states.
Conjunct 2 evaluates the failing input: one ride with pickup and drop both
`"A"` gives one unique location and two invocations. -/
theorem location_resolver_double_call :
    (∀ (svc : String → ℕ → GeoOutcome) (rides : List SilverRow),
      create_location_tableCalls svc rides = 2 * (uniqueLocations rides).length) ∧
    (create_location_tableCalls svcNoMatch ridesOneLoc = 2 ∧
      (uniqueLocations ridesOneLoc).length = 1) := by
  refine ⟨?_, by decide, by decide⟩
  intro svc rides
  unfold create_location_tableCalls
  rw [buildLocEntries_snd]
  ring

/-- C5: `get_loc` never raises past its boundary (at the default three
attempts it always returns a pair), makes at most 3 service calls, returns
`(None, None)` immediately with no sleep on an explicit "no match",
returns `(None, None)` after exactly 3 calls and two 1.5-second sleeps
when every attempt raises, and a retry that succeeds returns the found
coordinates after one 1.5-second sleep. -/
theorem get_loc_retry_contract :
    ∀ svc : ℕ → GeoOutcome,
      ((get_loc svc).result).isSome = true ∧
      (get_loc svc).calls ≤ 3 ∧
      (svc 0 = .noMatch →
        get_loc svc = { result := some (none, none), calls := 1, sleeps := [] }) ∧
      ((∀ k, k < 3 → svc k = .failure) →
        get_loc svc = { result := some (none, none), calls := 3, sleeps := [3/2, 3/2] }) ∧
      (∀ la lo, svc 0 = .failure → svc 1 = .found la lo →
        get_loc svc = { result := some (some la, some lo), calls := 2, sleeps := [3/2] }) := by
  intro svc
  have key : ((get_loc svc).result).isSome = true ∧ (get_loc svc).calls ≤ 3 := by
    cases h0 : svc 0 with
    | found la lo => simp [get_loc, get_locLoop, h0]
    | noMatch => simp [get_loc, get_locLoop, h0]
    | failure =>
      cases h1 : svc 1 with
      | found la lo => simp [get_loc, get_locLoop, h0, h1]
      | noMatch => simp [get_loc, get_locLoop, h0, h1]
      | failure =>
        cases h2 : svc 2 with
        | found la lo => simp [get_loc, get_locLoop, h0, h1, h2]
        | noMatch => simp [get_loc, get_locLoop, h0, h1, h2]
        | failure => simp [get_loc, get_locLoop, h0, h1, h2]
  refine ⟨key.1, key.2, ?_, ?_, ?_⟩
  · intro h0
    simp [get_loc, get_locLoop, h0]
  · intro h
    simp [get_loc, get_locLoop, h 0 (by decide), h 1 (by decide), h 2 (by decide)]
  · intro la lo h0 h1
    simp [get_loc, get_locLoop, h0, h1]

/-- Witness for C5: when every attempt raises, `get_loc` returns
`(None, None)` after 3 calls and two 1.5-second sleeps. -/
theorem get_loc_retry_contract_witness :
    get_loc svcAllFail = { result := some (none, none), calls := 3, sleeps := [3/2, 3/2] } :=
  (get_loc_retry_contract svcAllFail).2.2.2.1 (fun _ _ => rfl)

/-- C8: the location table has exactly one entry per unique location
string appearing as a pickup or drop location — no duplicates (conjunct 1)
and no omissions or extras (conjunct 2). -/
theorem location_table_unique_complete :
    ∀ (svc : String → ℕ → GeoOutcome) (rides : List SilverRow),
      ((create_location_table svc rides).map (·.location)).Nodup ∧
      ∀ l : String,
        (∃ e ∈ create_location_table svc rides, e.location = l) ↔
          ∃ r ∈ rides, r.pickup_location = l ∨ r.drop_location = l := by
  intro svc rides
  constructor
  · rw [create_location_table_map_location]
    exact List.nodup_dedup _
  · intro l
    have h1 : (∃ e ∈ create_location_table svc rides, e.location = l) ↔
        l ∈ (create_location_table svc rides).map (·.location) := by
      rw [List.mem_map]
    rw [h1, create_location_table_map_location]
    unfold uniqueLocations
    rw [List.mem_dedup, List.mem_append, List.mem_map, List.mem_map]
    constructor
    · rintro (⟨r, hr, he⟩ | ⟨r, hr, he⟩)
      · exact ⟨r, hr, Or.inl he⟩
      · exact ⟨r, hr, Or.inr he⟩
    · rintro ⟨r, hr, he | he⟩
      · exact Or.inl ⟨r, hr, he⟩
      · exact Or.inr ⟨r, hr, he⟩

/-- Witness for C8: on the one-ride dataset the table's location column
has no duplicates. -/
theorem location_table_unique_complete_witness :
    ((create_location_table svcNoMatch ridesOneLoc).map (·.location)).Nodup :=
  (location_table_unique_complete svcNoMatch ridesOneLoc).1

/-- C9: a location-table entry's latitude and longitude are the two
components of one and the same resolution result for its location string —
with the geocoding service unchanged (the oracle is fixed), the two
`get_loc` calls made for an entry agree, so repeated resolution is
idempotent and each location has at most one resolved coordinate. -/
theorem location_entry_single_resolution :
    ∀ (svc : String → ℕ → GeoOutcome) (rides : List SilverRow),
      ∀ e ∈ create_location_table svc rides,
        (e.latitude, e.longitude) = resolveLoc svc e.location := by
  intro svc rides e he
  obtain ⟨l, _, rfl⟩ := buildLocEntries_mem svc he
  rfl

/-- Witness for C9: the entry built for `"A"` under the no-match service
carries exactly the components of `resolveLoc` at `"A"`. -/
theorem location_entry_single_resolution_witness :
    (entryA.latitude, entryA.longitude) = resolveLoc svcNoMatch entryA.location :=
  location_entry_single_resolution svcNoMatch ridesOneLoc entryA (by decide)

/-! ### Weather table claims -/

/-- C6 (code bug): conjunct 1 — `get_weather_info` does return the failure
signal `None` once its 3 retries are exhausted; conjunct 2 — but
`create_weather_table` does not check it: for a resolvable location whose
fetch fails, it builds `pl.DataFrame(None)` tagged with the location and
returns an aggregate containing that degenerate frame (only a `location`
column) instead of keeping the failure out of the table. -/
theorem weather_fetch_exhausted_retries :
    (∀ svcW : ℕ → Except Unit (List Obs), (∀ k, k < 3 → svcW k = .error ()) →
      get_weather_info svcW = none) ∧
    (create_weather_table fetchFail [locA]
      = .ok [{ schema := ["location"], location := "A", height := 1 }]) := by
  constructor
  · intro svcW h
    simp [get_weather_info, get_weather_infoLoop,
      h 0 (by decide), h 1 (by decide), h 2 (by decide)]
  · rfl

/-- Witness for C6: an always-failing fetch oracle makes
`get_weather_info` return `None`. -/
theorem weather_fetch_exhausted_retries_witness :
    get_weather_info (fun _ => Except.error ()) = none :=
  weather_fetch_exhausted_retries.1 (fun _ => Except.error ()) (fun _ _ => rfl)

/-- Counterexample to C7 as stated: with two resolvable locations where
`"B"`'s fetch produces one observation row and `"A"`'s fetch fails, the
stage raises (a concat schema mismatch) even though a location produced
weather rows — it does not return the partial result. -/
theorem weather_table_partial_cex :
    (∃ msg, create_weather_table fetchMixed locsAB = .error msg) ∧
    fetchMixed 2 2 = some [obs0] :=
  ⟨⟨"unable to vstack, column names do not match", rfl⟩, rfl⟩

/-- `pl.concat` on a list of frames of one common schema: raises exactly
on the empty list, and returns the stacked frames otherwise. -/
theorem concatFrames_ok {fr : List WFrame} (h : ∀ f ∈ fr, f.schema = weatherSchema) :
    (fr = [] ∧ ∃ msg, concatFrames fr = .error msg) ∨
      (fr ≠ [] ∧ concatFrames fr = .ok fr) := by
  cases fr with
  | nil => exact Or.inl ⟨rfl, "cannot concat empty list", rfl⟩
  | cons f fs =>
    right
    refine ⟨by simp, ?_⟩
    have hall : fs.all (fun g => g.schema == f.schema) = true := by
      rw [List.all_eq_true]
      intro g hg
      rw [h g (List.mem_cons_of_mem _ hg), h f (List.mem_cons_self _ _)]
      exact beq_self_eq_true _
    simp [concatFrames, hall]

/-- C7 as amended: provided the weather fetch succeeds for every
resolvable location, the builder skips exactly the null-coordinate
locations without failing, fails iff there is no resolvable location, and
otherwise returns the partial table with one full-schema frame per
resolvable location. -/
theorem weather_table_skip_and_partial :
    ∀ (fetch : ℤ → ℤ → Option (List Obs)) (loc_df : List LocEntry),
      (∀ e ∈ loc_df, e.latitude.isSome = true → e.longitude.isSome = true →
        fetch (e.longitude.getD 0) (e.latitude.getD 0) ≠ none) →
      ((∃ msg, create_weather_table fetch loc_df = .error msg) ↔
        loc_df.filter (fun e => e.latitude.isSome && e.longitude.isSome) = []) ∧
      (∀ frames, create_weather_table fetch loc_df = .ok frames →
        frames.map (·.location)
          = (loc_df.filter (fun e => e.latitude.isSome && e.longitude.isSome)).map
              (·.location) ∧
        ∀ f ∈ frames, f.schema = weatherSchema) := by
  intro fetch loc_df hfetch
  have hsch : ∀ e ∈ loc_df.filter (fun e => e.latitude.isSome && e.longitude.isSome),
      (locationFrame fetch e).schema = weatherSchema ∧
        (locationFrame fetch e).location = e.location := by
    intro e he
    obtain ⟨hel, hp⟩ := List.mem_filter.mp he
    obtain ⟨hlat, hlon⟩ := (Bool.and_eq_true _ _).mp hp
    have hne := hfetch e hel hlat hlon
    unfold locationFrame
    cases hf : fetch (e.longitude.getD 0) (e.latitude.getD 0) with
    | none => exact absurd hf hne
    | some rows => exact ⟨rfl, rfl⟩
  have hcw : create_weather_table fetch loc_df
      = concatFrames ((loc_df.filter
          (fun e => e.latitude.isSome && e.longitude.isSome)).map
            (locationFrame fetch)) := rfl
  have hfr : ∀ f ∈ (loc_df.filter
      (fun e => e.latitude.isSome && e.longitude.isSome)).map (locationFrame fetch),
      f.schema = weatherSchema := by
    intro f hf
    obtain ⟨e2, he2, rfl⟩ := List.mem_map.mp hf
    exact (hsch e2 he2).1
  rcases concatFrames_ok hfr with ⟨hnil, msg, herr⟩ | ⟨hne, hok⟩
  · have hresnil : loc_df.filter (fun e => e.latitude.isSome && e.longitude.isSome)
        = [] := List.map_eq_nil_iff.mp hnil
    constructor
    · exact iff_of_true ⟨msg, hcw.trans herr⟩ hresnil
    · intro frames hframes
      rw [hcw, herr] at hframes
      cases hframes
  · have hresne : loc_df.filter (fun e => e.latitude.isSome && e.longitude.isSome)
        ≠ [] := by
      intro hcontra
      exact hne (by rw [hcontra]; rfl)
    constructor
    · refine iff_of_false ?_ hresne
      rintro ⟨msg, hmsg⟩
      rw [hcw, hok] at hmsg
      cases hmsg
    · intro frames hframes
      rw [hcw, hok] at hframes
      cases hframes
      constructor
      · rw [List.map_map]
        exact List.map_congr_left (fun e2 he2 => (hsch e2 he2).2)
      · exact hfr

/-- Witness for the amended C7: with an always-succeeding fetch over two
resolvable locations, the stage does not fail and covers both
locations. -/
theorem weather_table_skip_and_partial_witness :
    ((∃ msg, create_weather_table fetchOk locsAB = .error msg) ↔
      locsAB.filter (fun e => e.latitude.isSome && e.longitude.isSome) = []) ∧
    (∀ frames, create_weather_table fetchOk locsAB = .ok frames →
      frames.map (·.location)
        = (locsAB.filter (fun e => e.latitude.isSome && e.longitude.isSome)).map
            (·.location) ∧
      ∀ f ∈ frames, f.schema = weatherSchema) :=
  weather_table_skip_and_partial fetchOk locsAB
    (fun _ _ _ _ => by simp [fetchOk])

/-! ### Row preservation of the gold table -/

/-- Under unique location keys the per-key filter has at most one hit. -/
theorem filter_loc_len_le {loc : List LocEntry}
    (hnd : (loc.map (·.location)).Nodup) (x : String) :
    (loc.filter (fun e => e.location == x)).length ≤ 1 := by
  induction loc with
  | nil => simp
  | cons e es ih =>
    rw [List.map_cons, List.nodup_cons] at hnd
    obtain ⟨hni, hnd2⟩ := hnd
    by_cases hx : e.location == x
    · rw [List.filter_cons, if_pos hx]
      have hnilf : es.filter (fun e2 => e2.location == x) = [] := by
        rw [List.filter_eq_nil_iff]
        intro a ha hax
        refine hni ?_
        have hax2 : a.location = x := by simpa using hax
        have hex : e.location = x := by simpa using hx
        rw [List.mem_map]
        exact ⟨a, ha, by rw [hax2, hex]⟩
      rw [hnilf]
      simp
    · rw [List.filter_cons, if_neg hx]
      exact ih hnd2

/-- Under unique location keys each left row contributes exactly one
joined row. -/
theorem length_leftJoin_one {loc : List LocEntry}
    (hnd : (loc.map (·.location)).Nodup) (x : String) (keep : GoldRow)
    (f : LocEntry → GoldRow) :
    (leftJoinRows (loc.filter (fun e => e.location == x)) keep f).length = 1 := by
  cases hc : loc.filter (fun e => e.location == x) with
  | nil => rw [leftJoinRows_nil]; rfl
  | cons e es =>
    have hlen := filter_loc_len_le hnd x
    rw [hc] at hlen
    rw [leftJoinRows_cons, List.length_map]
    simp only [List.length_cons] at hlen ⊢
    omega

/-- A location left join preserves the row count when the right keys are
unique. -/
theorem length_flatMap_leftJoin {loc : List LocEntry}
    (hnd : (loc.map (·.location)).Nodup) (key : GoldRow → String)
    (f : GoldRow → LocEntry → GoldRow) :
    ∀ l : List GoldRow,
      (l.flatMap (fun r =>
        leftJoinRows (loc.filter (fun e => e.location == key r)) r (f r))).length
        = l.length
  | [] => rfl
  | r :: rs => by
    rw [List.flatMap_cons, List.length_append,
      length_flatMap_leftJoin hnd key f rs, length_leftJoin_one hnd, List.length_cons]
    omega

theorem length_sortByDatetime (l : List GoldRow) :
    (sortByDatetime l).length = l.length :=
  (List.perm_insertionSort goldLE l).length_eq

theorem mem_sortByDatetime {l : List GoldRow} {g : GoldRow} :
    g ∈ sortByDatetime l ↔ g ∈ l :=
  (List.perm_insertionSort goldLE l).mem_iff

/-- Membership introduction for a left-join stage: a left row with no key
match survives unchanged, and each match produces its combined row. -/
theorem mem_flatMap_leftJoin_self {loc : List LocEntry} {key : GoldRow → String}
    {f : GoldRow → LocEntry → GoldRow} {l : List GoldRow} {r0 : GoldRow}
    (h : r0 ∈ l) :
    (loc.filter (fun e => e.location == key r0) = [] →
      r0 ∈ l.flatMap (fun r =>
        leftJoinRows (loc.filter (fun e => e.location == key r)) r (f r))) ∧
    (∀ e ∈ loc.filter (fun e => e.location == key r0),
      f r0 e ∈ l.flatMap (fun r =>
        leftJoinRows (loc.filter (fun e => e.location == key r)) r (f r))) := by
  constructor
  · intro hnil
    rw [List.mem_flatMap]
    refine ⟨r0, h, ?_⟩
    rw [hnil, leftJoinRows_nil]
    exact List.mem_singleton.mpr rfl
  · intro e he
    rw [List.mem_flatMap]
    refine ⟨r0, h, ?_⟩
    cases hc : loc.filter (fun e2 => e2.location == key r0) with
    | nil => rw [hc] at he; cases he
    | cons c cs =>
      rw [hc] at he
      rw [leftJoinRows_cons]
      exact List.mem_map_of_mem _ he

theorem stage1_exists (rides : List SilverRow) (loc : List LocEntry) :
    ∀ r ∈ rides, ∃ g ∈ goldStage1 rides loc,
      baseEq g r ∧
      ((∀ e ∈ loc, e.location ≠ r.pickup_location) →
        g.pickup_latitude = none ∧ g.pickup_longitude = none) ∧
      g.drop_latitude = none ∧ g.drop_longitude = none := by
  intro r hr
  have hmem0 : initRow r ∈ rides.map initRow := List.mem_map_of_mem _ hr
  cases hc : loc.filter (fun e => e.location == r.pickup_location) with
  | nil =>
    refine ⟨initRow r, ?_, ⟨rfl, rfl, rfl, rfl, rfl⟩, fun _ => ⟨rfl, rfl⟩, rfl, rfl⟩
    exact (mem_flatMap_leftJoin_self hmem0).1 hc
  | cons c cs =>
    have hcf : c ∈ loc.filter (fun e => e.location == r.pickup_location) := by
      rw [hc]; exact List.mem_cons_self _ _
    obtain ⟨hcl, hck⟩ := List.mem_filter.mp hcf
    refine ⟨{ initRow r with pickup_latitude := c.latitude, pickup_longitude := c.longitude }, ?_, ⟨rfl, rfl, rfl, rfl, rfl⟩, ?_, rfl, rfl⟩
    · exact (mem_flatMap_leftJoin_self hmem0).2 c hcf
    · intro habs
      exact absurd (by simpa using hck) (habs c hcl)

theorem stage2_exists (rides : List SilverRow) (loc : List LocEntry) :
    ∀ r ∈ rides, ∃ g ∈ goldStage2 rides loc,
      baseEq g r ∧
      ((∀ e ∈ loc, e.location ≠ r.pickup_location) →
        g.pickup_latitude = none ∧ g.pickup_longitude = none) ∧
      ((∀ e ∈ loc, e.location ≠ r.drop_location) →
        g.drop_latitude = none ∧ g.drop_longitude = none) := by
  intro r hr
  obtain ⟨g1, hg1, hbase, hpick, hdlat, hdlon⟩ := stage1_exists rides loc r hr
  cases hc : loc.filter (fun e => e.location == g1.drop_location) with
  | nil =>
    refine ⟨g1, ?_, hbase, hpick, fun _ => ⟨hdlat, hdlon⟩⟩
    exact (mem_flatMap_leftJoin_self hg1).1 hc
  | cons c cs =>
    have hcf : c ∈ loc.filter (fun e => e.location == g1.drop_location) := by
      rw [hc]; exact List.mem_cons_self _ _
    obtain ⟨hcl, hck⟩ := List.mem_filter.mp hcf
    refine ⟨{ g1 with drop_latitude := c.latitude, drop_longitude := c.longitude }, ?_, ⟨hbase.1, hbase.2.1, hbase.2.2.1, hbase.2.2.2.1, hbase.2.2.2.2⟩, fun habs => hpick habs, ?_⟩
    · exact (mem_flatMap_leftJoin_self hg1).2 c hcf
    · intro habs
      have hcd : c.location = g1.drop_location := by simpa using hck
      rw [hbase.2.2.1] at hcd
      exact absurd hcd (habs c hcl)

theorem stage3_exists (rides : List SilverRow) (loc : List LocEntry) :
    ∀ r ∈ rides, ∃ g ∈ goldStage3 rides loc,
      baseEq g r ∧ g.datetime = r.date * 1440 + r.time ∧
      ((∀ e ∈ loc, e.location ≠ r.pickup_location) →
        g.pickup_latitude = none ∧ g.pickup_longitude = none) ∧
      ((∀ e ∈ loc, e.location ≠ r.drop_location) →
        g.drop_latitude = none ∧ g.drop_longitude = none) := by
  intro r hr
  obtain ⟨g2, hg2, hbase, hpick, hdrop⟩ := stage2_exists rides loc r hr
  refine ⟨{ g2 with datetime := g2.date * 1440 + g2.time }, List.mem_map_of_mem _ hg2, ⟨hbase.1, hbase.2.1, hbase.2.2.1, hbase.2.2.2.1, hbase.2.2.2.2⟩, ?_, hpick, hdrop⟩
  show g2.date * 1440 + g2.time = r.date * 1440 + r.time
  rw [hbase.2.2.2.1, hbase.2.2.2.2]

/-- C2: enrichment produces exactly one gold row per input ride.  With the
location table's keys unique (as `create_location_table` guarantees), the
output row count equals the input row count, and every input ride appears
in the output with its silver fields intact and its derived timestamp —
with null coordinates when its location is absent from the location table,
and null weather fields when no observation lies within tolerance; rows
are never dropped. -/
theorem gold_no_row_loss :
    ∀ (rides : List SilverRow) (loc : List LocEntry) (weather : List WeatherRow),
      ((loc.map (·.location)).Nodup) →
      (create_gold_table rides loc weather).length = rides.length ∧
      ∀ r ∈ rides, ∃ g ∈ create_gold_table rides loc weather,
        baseEq g r ∧ g.datetime = r.date * 1440 + r.time ∧
        ((∀ e ∈ loc, e.location ≠ r.pickup_location) →
          g.pickup_latitude = none ∧ g.pickup_longitude = none) ∧
        ((∀ e ∈ loc, e.location ≠ r.drop_location) →
          g.drop_latitude = none ∧ g.drop_longitude = none) ∧
        (join_asof_nearest weather r.pickup_location (r.date * 1440 + r.time) = none →
          pickupWeatherFields g = (none, none, none, none, none)) ∧
        (join_asof_nearest weather r.drop_location (r.date * 1440 + r.time) = none →
          dropWeatherFields g = (none, none, none, none, none)) := by
  intro rides loc weather hnd
  constructor
  · have l1 : (goldStage1 rides loc).length = rides.length := by
      unfold goldStage1
      rw [length_flatMap_leftJoin hnd, List.length_map]
    have l2 : (goldStage2 rides loc).length = (goldStage1 rides loc).length := by
      unfold goldStage2
      rw [length_flatMap_leftJoin hnd]
    have l3 : (goldStage3 rides loc).length = (goldStage2 rides loc).length := by
      unfold goldStage3
      rw [List.length_map]
    have l4 : (goldStage4 rides loc weather).length = (goldStage3 rides loc).length := by
      unfold goldStage4
      rw [List.length_map, length_sortByDatetime]
    unfold create_gold_table
    rw [List.length_map, length_sortByDatetime, l4, l3, l2, l1]
  · intro r hr
    obtain ⟨g3, hg3, hbase, hdt, hpick, hdrop⟩ := stage3_exists rides loc r hr
    have hg4 : applyPickupWeather weather g3 ∈ goldStage4 rides loc weather := by
      unfold goldStage4
      exact List.mem_map_of_mem _ (mem_sortByDatetime.mpr hg3)
    have hg5 : applyDropWeather weather (applyPickupWeather weather g3)
        ∈ create_gold_table rides loc weather := by
      unfold create_gold_table
      exact List.mem_map_of_mem _ (mem_sortByDatetime.mpr hg4)
    obtain ⟨hb1, hp1, hd1, hda1, hti1, hdt1, hplat1, hplon1, hdlat1, hdlon1, hkeepP⟩ :=
      applyDropWeather_pres weather (applyPickupWeather weather g3)
    obtain ⟨hb2, hp2, hd2, hda2, hti2, hdt2, hplat2, hplon2, hdlat2, hdlon2, hkeepD⟩ :=
      applyPickupWeather_pres weather g3
    set g5 := applyDropWeather weather (applyPickupWeather weather g3) with hg5def
    have hlink := gold_weather_link rides loc weather g5 hg5
    have hbase5 : baseEq g5 r :=
      ⟨hb1.trans (hb2.trans hbase.1), hp1.trans (hp2.trans hbase.2.1),
       hd1.trans (hd2.trans hbase.2.2.1), hda1.trans (hda2.trans hbase.2.2.2.1),
       hti1.trans (hti2.trans hbase.2.2.2.2)⟩
    have hdt5 : g5.datetime = r.date * 1440 + r.time :=
      hdt1.trans (hdt2.trans hdt)
    refine ⟨g5, hg5, hbase5, hdt5, ?_, ?_, ?_, ?_⟩
    · intro habs
      obtain ⟨ha, hb⟩ := hpick habs
      exact ⟨hplat1.trans (hplat2.trans ha), hplon1.trans (hplon2.trans hb)⟩
    · intro habs
      obtain ⟨ha, hb⟩ := hdrop habs
      exact ⟨hdlat1.trans (hdlat2.trans ha), hdlon1.trans (hdlon2.trans hb)⟩
    · intro hjoin
      rw [hlink.1, hbase5.2.1, hdt5, hjoin]
      rfl
    · intro hjoin
      rw [hlink.2, hbase5.2.2.1, hdt5, hjoin]
      rfl

/-- Witness for C2: on the tolerance-scenario input the gold table has
exactly as many rows as the silver input. -/
theorem gold_no_row_loss_witness :
    (create_gold_table ridesTol locX weatherTol).length = ridesTol.length :=
  (gold_no_row_loss ridesTol locX weatherTol (by decide)).1

end SilverToGold
